import Mathlib

/-!
Verification of the `cliclack` input prompt: a shallow embedding of the
key-event state machine in `src/input.rs` (the `Input` prompt with its
autocomplete cycling, multiline modes and validation pipeline), together
with the suggestion filter.  Buffers are lists of characters with a cursor
offset; machine state is passed explicitly; fallible parsing is `Option`.
-/

namespace Cliclack

/-- Multiline editing mode of the prompt (`enum Multiline` in `input.rs`). -/
inductive Multiline where
  | Disabled
  | Preview
  | Editing
deriving DecidableEq, Repr

/-- Lifecycle state returned to the host loop for every processed event
(`State<T>` of the prompt interaction module). -/
inductive State (τ : Type) where
  | Active
  | Cancel
  | Error (msg : String)
  | Submit (value : τ)
deriving DecidableEq, Repr

/-- Key events fed to the prompt (`console::Key`); `Other` stands for every
key constructor that the `Input::on` match sends to its catch-all arm. -/
inductive Key where
  | Char (c : Char)
  | Tab
  | ArrowDown
  | ArrowUp
  | Escape
  | Enter
  | Backspace
  | Other
deriving DecidableEq, Repr

/-- Modelled from the spec: the Text Cursor Buffer (`StringCursor`, whose
source is outside the files at hand).  Per §4.1 it is an ordered character
sequence with a cursor offset in `[0, length]`. -/
structure StringCursor where
  chars : List Char
  cursor : Nat
deriving DecidableEq, Repr

/-- The empty buffer a fresh prompt starts with. -/
def StringCursor.empty : StringCursor := ⟨[], 0⟩

/-- Modelled from the spec: `insert(char)` inserts one character at the
cursor offset and advances the offset by one. -/
def StringCursor.insert (s : StringCursor) (c : Char) : StringCursor :=
  ⟨s.chars.take s.cursor ++ c :: s.chars.drop s.cursor, s.cursor + 1⟩

/-- Modelled from the spec: `delete_left()` removes the character
immediately before the cursor, if any; no-op at offset 0. -/
def StringCursor.delete_left (s : StringCursor) : StringCursor :=
  if s.cursor = 0 then s
  else ⟨s.chars.take (s.cursor - 1) ++ s.chars.drop s.cursor, s.cursor - 1⟩

/-- Modelled from the spec: `extend(text)` appends the string's characters
at the end without moving the cursor. -/
def StringCursor.extend (s : StringCursor) (t : String) : StringCursor :=
  ⟨s.chars ++ t.data, s.cursor⟩

/-- Modelled from the spec: `clear()` empties the buffer and resets the
cursor to 0. -/
def StringCursor.clear (_s : StringCursor) : StringCursor := ⟨[], 0⟩

/-- Modelled from the spec: read access producing the current contents. -/
def StringCursor.toString (s : StringCursor) : String := String.mk s.chars

/-- Modelled from the spec: emptiness test used by `input.rs`. -/
def StringCursor.is_empty (s : StringCursor) : Bool := s.chars.isEmpty

/-- `char::is_ascii_control` of Rust: a C0 control character or DEL. -/
def isAsciiControl (c : Char) : Bool := c.toNat < 0x20 || c.toNat == 0x7f

/-- `String::is_empty` of Rust, structurally on the character list. -/
def strIsEmpty (s : String) : Bool := s.data.isEmpty

/-- `str::to_lowercase` of Rust (ASCII range, characterwise), structurally
on the character list. -/
def lowerStr (s : String) : String := String.mk (s.data.map Char.toLower)

/-- Substring test on character lists, modelling `str::contains` of the
Rust standard library: some suffix of the haystack starts with the needle. -/
def containsList (hay needle : List Char) : Bool :=
  match hay with
  | [] => needle.isEmpty
  | c :: t => needle.isPrefixOf (c :: t) || containsList t needle

/-- `hay.contains(needle)` on strings (Rust `str::contains`). -/
def strContains (hay needle : String) : Bool := containsList hay.data needle.data

/-- The `Input` prompt state (`struct Input` in `input.rs`).  The target
type's `FromStr` instance is embedded as the `parse` field; validators are
`Result<(), String>` callbacks. -/
structure Input (τ : Type) where
  prompt : String
  input : StringCursor
  input_required : Bool
  default : Option String
  placeholder : StringCursor
  multiline : Multiline
  validate_on_enter : Option (String → Except String Unit)
  validate_interactively : Option (String → Except String Unit)
  autocomplete : Option (List String)
  autocompletion_index : Option Nat
  autocompletion_query : String
  autocomplete_on_enter : Bool
  parse : String → Option τ

/-- `Input::new`: all fields default except the prompt text and
`input_required = true`; the `parse` argument stands for `T: FromStr`. -/
def Input.new {τ : Type} (prompt : String) (parse : String → Option τ) : Input τ :=
  { prompt := prompt
    input := StringCursor.empty
    input_required := true
    default := none
    placeholder := StringCursor.empty
    multiline := Multiline.Disabled
    validate_on_enter := none
    validate_interactively := none
    autocomplete := none
    autocompletion_index := none
    autocompletion_query := ""
    autocomplete_on_enter := false
    parse := parse }

/-- `Input::get_filtered_suggestions`: case-insensitive substring filter of
the static candidate list; empty for an empty query or no candidates. -/
def Input.get_filtered_suggestions {τ : Type} (self : Input τ) (query : String) : List String :=
  match self.autocomplete with
  | some choices =>
    if strIsEmpty query then []
    else choices.filter (fun choice => strContains (lowerStr choice) (lowerStr query))
  | none => []

/-- The `filter_query` computed at the top of `Input::on`: the pinned
query, falling back to the live buffer contents when none is pinned. -/
def Input.filterQuery {τ : Type} (self : Input τ) : String :=
  if strIsEmpty self.autocompletion_query then self.input.toString else self.autocompletion_query

/-- The filtered suggestion list `Input::on` works with on a cycling key. -/
def Input.filteredNow {τ : Type} (self : Input τ) : List String :=
  self.get_filtered_suggestions self.filterQuery

/-- The `Key::Tab` arm of `Input::on` (suggestion cycling with wrap to
no-selection).  Rust indexes `filtered_suggestions[idx]`, always in bounds
on reachable states (see the invariant theorems); embedded as `getD`. -/
def Input.onTab {τ : Type} (self : Input τ) (query filter_query : String) :
    Input τ × State τ :=
  let filtered_suggestions := self.get_filtered_suggestions filter_query
  if filtered_suggestions.isEmpty then (self, State.Active)
  else
    let self1 :=
      if strIsEmpty self.autocompletion_query then
        { self with autocompletion_query := query }
      else self
    let new_index : Option Nat :=
      match self1.autocompletion_index with
      | none => some 0
      | some idx =>
        if idx ≥ filtered_suggestions.length - 1 then none else some (idx + 1)
    let self2 := { self1 with autocompletion_index := new_index }
    match new_index with
    | some idx =>
      ({ self2 with input := (self2.input.clear).extend (filtered_suggestions.getD idx "") },
        State.Active)
    | none => (self2, State.Active)

/-- The `Key::ArrowDown` arm of `Input::on` (circular next selection). -/
def Input.onArrowDown {τ : Type} (self : Input τ) (query filter_query : String) :
    Input τ × State τ :=
  let filtered_suggestions := self.get_filtered_suggestions filter_query
  if filtered_suggestions.isEmpty then (self, State.Active)
  else
    let self1 :=
      if strIsEmpty self.autocompletion_query then
        { self with autocompletion_query := query }
      else self
    let new_index : Option Nat :=
      match self1.autocompletion_index with
      | none => some 0
      | some idx =>
        if idx ≥ filtered_suggestions.length - 1 then some 0 else some (idx + 1)
    let self2 := { self1 with autocompletion_index := new_index }
    match new_index with
    | some idx =>
      ({ self2 with input := (self2.input.clear).extend (filtered_suggestions.getD idx "") },
        State.Active)
    | none => (self2, State.Active)

/-- The `Key::ArrowUp` arm of `Input::on` (circular previous selection). -/
def Input.onArrowUp {τ : Type} (self : Input τ) (query filter_query : String) :
    Input τ × State τ :=
  let filtered_suggestions := self.get_filtered_suggestions filter_query
  if filtered_suggestions.isEmpty then (self, State.Active)
  else
    let self1 :=
      if strIsEmpty self.autocompletion_query then
        { self with autocompletion_query := query }
      else self
    let new_index : Option Nat :=
      match self1.autocompletion_index with
      | none => some (filtered_suggestions.length - 1)
      | some idx =>
        if idx = 0 then some (filtered_suggestions.length - 1) else some (idx - 1)
    let self2 := { self1 with autocompletion_index := new_index }
    match new_index with
    | some idx =>
      ({ self2 with input := (self2.input.clear).extend (filtered_suggestions.getD idx "") },
        State.Active)
    | none => (self2, State.Active)

/-- The non-early-returning arms of the `match` in `Input::on` (`Enter`,
`Char`, `Backspace`, catch-all): the state mutation plus the `submit`
flag, before the common tail of the function runs. -/
def Input.preMatch {τ : Type} (self : Input τ) (key : Key) : Input τ × Bool :=
  match key with
  | Key.Enter =>
    if self.multiline = Multiline.Editing then
      ({ self with input := self.input.insert '\n' }, false)
    else (self, true)
  | Key.Char c =>
    if isAsciiControl c then (self, false)
    else if self.multiline = Multiline.Preview then
      ({ self with input := self.input.insert c }, false)
    else
      ({ self with autocompletion_index := none, autocompletion_query := "" }, false)
  | Key.Backspace =>
    if self.multiline = Multiline.Preview then
      ({ self with input := self.input.delete_left }, false)
    else
      ({ self with autocompletion_index := none, autocompletion_query := "" }, false)
  | _ => (self, false)

/-- Lines 353-360 of `input.rs`: on submit with `autocomplete_on_enter`
and no highlighted suggestion, fill in the first suggestion if any. -/
def Input.autocompleteOnEnterStep {τ : Type} (self : Input τ) (submit : Bool) : Input τ :=
  if submit ∧ self.autocomplete_on_enter = true ∧ self.autocompletion_index = none then
    match self.get_filtered_suggestions self.input.toString with
    | [] => self
    | s0 :: _ => { self with input := (self.input.clear).extend s0 }
  else self

/-- Lines 362-365 of `input.rs`: preview flips back to editing. -/
def Input.previewFlipStep {τ : Type} (self : Input τ) : Input τ :=
  if self.multiline = Multiline.Preview then { self with multiline := Multiline.Editing }
  else self

/-- The default-substitution half of the empty-submit handling (lines
367-373): an empty buffer on submit receives the default value, if set. -/
def Input.defaultSubstStep {τ : Type} (self : Input τ) (submit : Bool) : Input τ :=
  if submit ∧ self.input.is_empty = true then
    match self.default with
    | some d => { self with input := self.input.extend d }
    | none => self
  else self

/-- Lines 392-395 of `input.rs`: final parse of the buffer on submit. -/
def Input.parseStep {τ : Type} (self : Input τ) : Input τ × State τ :=
  match self.parse self.input.toString with
  | some value => (self, State.Submit value)
  | none => (self, State.Error ("Invalid value format"))

/-- Lines 385-396 of `input.rs`: on submit, run the on-enter validator and
then parse; otherwise stay active. -/
def Input.submitStep {τ : Type} (self : Input τ) (submit : Bool) : Input τ × State τ :=
  if submit then
    match self.validate_on_enter with
    | some v =>
      match v self.input.toString with
      | Except.error err => (self, State.Error err)
      | Except.ok _ => self.parseStep
    | none => self.parseStep
  else (self, State.Active)

/-- Lines 375-383 of `input.rs`: the interactive validator and the live
parse check, then the submit handling. -/
def Input.validateStep {τ : Type} (self : Input τ) (submit : Bool) : Input τ × State τ :=
  match self.validate_interactively with
  | some v =>
    match v self.input.toString with
    | Except.error err => (self, State.Error err)
    | Except.ok _ =>
      if (self.parse self.input.toString).isNone then
        (self, State.Error ("Invalid value format"))
      else self.submitStep submit
  | none => self.submitStep submit

/-- The common tail of `Input::on` after the key `match` (lines 353-398):
autocomplete-on-enter, preview flip, empty-submit handling, validation,
submission. -/
def Input.afterMatch {τ : Type} (self : Input τ) (submit : Bool) : Input τ × State τ :=
  let self1 := self.autocompleteOnEnterStep submit
  let self2 := self1.previewFlipStep
  if submit ∧ self2.input.is_empty = true ∧ self2.default = none ∧ self2.input_required = true then
    (self2, State.Error ("Input required"))
  else
    let self3 := self2.defaultSubstStep submit
    self3.validateStep submit

/-- `Input::on`: one key event processed by the prompt state machine.  The
guarded match arms of the Rust code are rendered in source order: the three
cycling arms and the Escape-in-editing arm return early; every other arm
falls through `preMatch` into the common tail `afterMatch`. -/
def Input.on {τ : Type} (self : Input τ) (key : Key) : Input τ × State τ :=
  let query := self.input.toString
  let filter_query := self.filterQuery
  if key = Key.Tab ∧ self.autocomplete.isSome = true then
    self.onTab query filter_query
  else if key = Key.ArrowDown ∧ self.autocomplete.isSome = true then
    self.onArrowDown query filter_query
  else if key = Key.ArrowUp ∧ self.autocomplete.isSome = true then
    self.onArrowUp query filter_query
  else if key = Key.Escape ∧ self.multiline = Multiline.Editing then
    ({ self with multiline := Multiline.Preview }, State.Cancel)
  else
    let ps := self.preMatch key
    ps.1.afterMatch ps.2

/-- The state preparation at the start of `Input::interact` (lines
153-163): seed the placeholder from the default and possibly start
multiline in preview, before entering the host read loop. -/
def Input.interact {τ : Type} (self : Input τ) : Input τ :=
  if self.placeholder.is_empty = true then
    match self.default with
    | some d =>
      let self1 := { self with placeholder := (self.placeholder.extend d).extend " (default)" }
      if self1.multiline = Multiline.Editing then
        { self1 with multiline := Multiline.Preview }
      else self1
    | none => self
  else self

/-! ### Library lemmas about the embedded Rust string primitives -/

theorem containsList_iff (h n : List Char) : containsList h n = true ↔ n <:+: h := by
  induction h with
  | nil => simp [containsList]
  | cons c t ih => rw [containsList]; simp [List.infix_cons_iff, ih]

theorem strContains_iff (hay needle : String) :
    strContains hay needle = true ↔ needle.data <:+: hay.data :=
  containsList_iff hay.data needle.data

theorem get_filtered_suggestions_empty_query {τ : Type} (s : Input τ) (q : String)
    (hq : strIsEmpty q = true) : s.get_filtered_suggestions q = [] := by
  unfold Input.get_filtered_suggestions
  cases s.autocomplete <;> simp [hq]

theorem get_filtered_suggestions_ne_nil {τ : Type} (s : Input τ) (q : String)
    (h : s.get_filtered_suggestions q ≠ []) :
    strIsEmpty q = false ∧ s.autocomplete.isSome = true := by
  cases hac : s.autocomplete with
  | none =>
    exfalso
    exact h (by simp only [Input.get_filtered_suggestions, hac])
  | some choices =>
    refine ⟨?_, by simp only [hac, Option.isSome_some]⟩
    cases hb : strIsEmpty q with
    | false => rfl
    | true =>
      exfalso
      exact h (by simp only [Input.get_filtered_suggestions, hac, hb, if_pos])

theorem get_filtered_suggestions_congr {τ τ' : Type} (s : Input τ) (s' : Input τ')
    (h : s'.autocomplete = s.autocomplete) (q : String) :
    s'.get_filtered_suggestions q = s.get_filtered_suggestions q := by
  unfold Input.get_filtered_suggestions
  rw [h]

/-! ### The index arithmetic of the three cycling arms -/

/-- New selection index produced by the Tab arm. -/
def cycleTab (idx : Option Nat) (len : Nat) : Option Nat :=
  match idx with
  | none => some 0
  | some i => if i ≥ len - 1 then none else some (i + 1)

/-- New selection index produced by the ArrowDown arm. -/
def cycleDown (idx : Option Nat) (len : Nat) : Option Nat :=
  match idx with
  | none => some 0
  | some i => if i ≥ len - 1 then some 0 else some (i + 1)

/-- New selection index produced by the ArrowUp arm. -/
def cycleUp (idx : Option Nat) (len : Nat) : Option Nat :=
  match idx with
  | none => some (len - 1)
  | some i => if i = 0 then some (len - 1) else some (i - 1)

theorem onTab_eq {τ : Type} (s : Input τ) (hne : s.filteredNow ≠ []) :
    s.onTab s.input.toString s.filterQuery =
      ({ s with
          autocompletion_query := s.filterQuery
          autocompletion_index := cycleTab s.autocompletion_index s.filteredNow.length
          input :=
            match cycleTab s.autocompletion_index s.filteredNow.length with
            | some i => (s.input.clear).extend (s.filteredNow.getD i "")
            | none => s.input }, State.Active) := by
  unfold Input.filteredNow at hne
  unfold Input.filteredNow
  unfold Input.onTab
  rw [if_neg (by simp [hne])]
  by_cases hp : strIsEmpty s.autocompletion_query = true
  · have hfq : s.filterQuery = s.input.toString := by
      unfold Input.filterQuery; rw [if_pos hp]
    rw [if_pos hp, hfq]
    cases hidx : s.autocompletion_index with
    | none => simp [cycleTab, hidx]
    | some i =>
      by_cases hge : i ≥ (s.get_filtered_suggestions s.input.toString).length - 1 <;>
        simp [cycleTab, hidx, hge]
  · have hfq : s.filterQuery = s.autocompletion_query := by
      unfold Input.filterQuery; rw [if_neg hp]
    rw [if_neg hp, hfq]
    cases hidx : s.autocompletion_index with
    | none => simp [cycleTab, hidx]
    | some i =>
      by_cases hge : i ≥ (s.get_filtered_suggestions s.autocompletion_query).length - 1 <;>
        simp [cycleTab, hidx, hge]

theorem onArrowDown_eq {τ : Type} (s : Input τ) (hne : s.filteredNow ≠ []) :
    s.onArrowDown s.input.toString s.filterQuery =
      ({ s with
          autocompletion_query := s.filterQuery
          autocompletion_index := cycleDown s.autocompletion_index s.filteredNow.length
          input :=
            match cycleDown s.autocompletion_index s.filteredNow.length with
            | some i => (s.input.clear).extend (s.filteredNow.getD i "")
            | none => s.input }, State.Active) := by
  unfold Input.filteredNow at hne
  unfold Input.filteredNow
  unfold Input.onArrowDown
  rw [if_neg (by simp [hne])]
  by_cases hp : strIsEmpty s.autocompletion_query = true
  · have hfq : s.filterQuery = s.input.toString := by
      unfold Input.filterQuery; rw [if_pos hp]
    rw [if_pos hp, hfq]
    cases hidx : s.autocompletion_index with
    | none => simp [cycleDown, hidx]
    | some i =>
      by_cases hge : i ≥ (s.get_filtered_suggestions s.input.toString).length - 1 <;>
        simp [cycleDown, hidx, hge]
  · have hfq : s.filterQuery = s.autocompletion_query := by
      unfold Input.filterQuery; rw [if_neg hp]
    rw [if_neg hp, hfq]
    cases hidx : s.autocompletion_index with
    | none => simp [cycleDown, hidx]
    | some i =>
      by_cases hge : i ≥ (s.get_filtered_suggestions s.autocompletion_query).length - 1 <;>
        simp [cycleDown, hidx, hge]

theorem onArrowUp_eq {τ : Type} (s : Input τ) (hne : s.filteredNow ≠ []) :
    s.onArrowUp s.input.toString s.filterQuery =
      ({ s with
          autocompletion_query := s.filterQuery
          autocompletion_index := cycleUp s.autocompletion_index s.filteredNow.length
          input :=
            match cycleUp s.autocompletion_index s.filteredNow.length with
            | some i => (s.input.clear).extend (s.filteredNow.getD i "")
            | none => s.input }, State.Active) := by
  unfold Input.filteredNow at hne
  unfold Input.filteredNow
  unfold Input.onArrowUp
  rw [if_neg (by simp [hne])]
  by_cases hp : strIsEmpty s.autocompletion_query = true
  · have hfq : s.filterQuery = s.input.toString := by
      unfold Input.filterQuery; rw [if_pos hp]
    rw [if_pos hp, hfq]
    cases hidx : s.autocompletion_index with
    | none => simp [cycleUp, hidx]
    | some i =>
      by_cases hge : i = 0 <;>
        simp [cycleUp, hidx, hge]
  · have hfq : s.filterQuery = s.autocompletion_query := by
      unfold Input.filterQuery; rw [if_neg hp]
    rw [if_neg hp, hfq]
    cases hidx : s.autocompletion_index with
    | none => simp [cycleUp, hidx]
    | some i =>
      by_cases hge : i = 0 <;>
        simp [cycleUp, hidx, hge]

theorem onTab_eq_of_empty {τ : Type} (s : Input τ) (he : s.filteredNow = []) :
    s.onTab s.input.toString s.filterQuery = (s, State.Active) := by
  unfold Input.filteredNow at he
  unfold Input.onTab
  rw [if_pos (by simp [he])]

theorem onArrowDown_eq_of_empty {τ : Type} (s : Input τ) (he : s.filteredNow = []) :
    s.onArrowDown s.input.toString s.filterQuery = (s, State.Active) := by
  unfold Input.filteredNow at he
  unfold Input.onArrowDown
  rw [if_pos (by simp [he])]

theorem onArrowUp_eq_of_empty {τ : Type} (s : Input τ) (he : s.filteredNow = []) :
    s.onArrowUp s.input.toString s.filterQuery = (s, State.Active) := by
  unfold Input.filteredNow at he
  unfold Input.onArrowUp
  rw [if_pos (by simp [he])]

/-! ### Dispatch lemmas for `Input.on` -/

theorem on_tab {τ : Type} (s : Input τ) (hac : s.autocomplete.isSome = true) :
    s.on Key.Tab = s.onTab s.input.toString s.filterQuery := by
  unfold Input.on
  simp [hac]

theorem on_arrowDown {τ : Type} (s : Input τ) (hac : s.autocomplete.isSome = true) :
    s.on Key.ArrowDown = s.onArrowDown s.input.toString s.filterQuery := by
  unfold Input.on
  simp [hac]

theorem on_arrowUp {τ : Type} (s : Input τ) (hac : s.autocomplete.isSome = true) :
    s.on Key.ArrowUp = s.onArrowUp s.input.toString s.filterQuery := by
  unfold Input.on
  simp [hac]

theorem on_fallthrough {τ : Type} (s : Input τ) (k : Key)
    (h1 : ¬(k = Key.Tab ∧ s.autocomplete.isSome = true))
    (h2 : ¬(k = Key.ArrowDown ∧ s.autocomplete.isSome = true))
    (h3 : ¬(k = Key.ArrowUp ∧ s.autocomplete.isSome = true))
    (h4 : ¬(k = Key.Escape ∧ s.multiline = Multiline.Editing)) :
    s.on k = (s.preMatch k).1.afterMatch (s.preMatch k).2 := by
  unfold Input.on
  rw [if_neg h1, if_neg h2, if_neg h3, if_neg h4]

/-! ### Field preservation through the common tail -/

theorem autocompleteOnEnterStep_fields {τ : Type} (s : Input τ) (b : Bool) :
    (s.autocompleteOnEnterStep b).autocompletion_index = s.autocompletion_index ∧
    (s.autocompleteOnEnterStep b).autocompletion_query = s.autocompletion_query ∧
    (s.autocompleteOnEnterStep b).autocomplete = s.autocomplete ∧
    (s.autocompleteOnEnterStep b).multiline = s.multiline ∧
    (s.autocompleteOnEnterStep b).default = s.default ∧
    (s.autocompleteOnEnterStep b).input_required = s.input_required ∧
    (s.autocompleteOnEnterStep b).validate_interactively = s.validate_interactively ∧
    (s.autocompleteOnEnterStep b).validate_on_enter = s.validate_on_enter ∧
    (s.autocompleteOnEnterStep b).parse = s.parse := by
  unfold Input.autocompleteOnEnterStep
  split
  · split <;> exact ⟨rfl, rfl, rfl, rfl, rfl, rfl, rfl, rfl, rfl⟩
  · exact ⟨rfl, rfl, rfl, rfl, rfl, rfl, rfl, rfl, rfl⟩

theorem previewFlipStep_fields {τ : Type} (s : Input τ) :
    (s.previewFlipStep).autocompletion_index = s.autocompletion_index ∧
    (s.previewFlipStep).autocompletion_query = s.autocompletion_query ∧
    (s.previewFlipStep).autocomplete = s.autocomplete ∧
    (s.previewFlipStep).input = s.input ∧
    (s.previewFlipStep).default = s.default ∧
    (s.previewFlipStep).input_required = s.input_required ∧
    (s.previewFlipStep).validate_interactively = s.validate_interactively ∧
    (s.previewFlipStep).validate_on_enter = s.validate_on_enter ∧
    (s.previewFlipStep).parse = s.parse ∧
    (s.previewFlipStep).multiline =
      (if s.multiline = Multiline.Preview then Multiline.Editing else s.multiline) := by
  unfold Input.previewFlipStep
  split <;> exact ⟨rfl, rfl, rfl, rfl, rfl, rfl, rfl, rfl, rfl, rfl⟩

theorem defaultSubstStep_fields {τ : Type} (s : Input τ) (b : Bool) :
    (s.defaultSubstStep b).autocompletion_index = s.autocompletion_index ∧
    (s.defaultSubstStep b).autocompletion_query = s.autocompletion_query ∧
    (s.defaultSubstStep b).autocomplete = s.autocomplete ∧
    (s.defaultSubstStep b).multiline = s.multiline ∧
    (s.defaultSubstStep b).default = s.default ∧
    (s.defaultSubstStep b).input_required = s.input_required ∧
    (s.defaultSubstStep b).validate_interactively = s.validate_interactively ∧
    (s.defaultSubstStep b).validate_on_enter = s.validate_on_enter ∧
    (s.defaultSubstStep b).parse = s.parse := by
  unfold Input.defaultSubstStep
  split
  · split <;> exact ⟨rfl, rfl, rfl, rfl, rfl, rfl, rfl, rfl, rfl⟩
  · exact ⟨rfl, rfl, rfl, rfl, rfl, rfl, rfl, rfl, rfl⟩

theorem validateStep_fst {τ : Type} (s : Input τ) (b : Bool) :
    (s.validateStep b).1 = s := by
  unfold Input.validateStep Input.submitStep Input.parseStep
  repeat' split
  all_goals rfl

theorem afterMatch_fst {τ : Type} (s : Input τ) (b : Bool) :
    (s.afterMatch b).1 =
      ((s.autocompleteOnEnterStep b).previewFlipStep).defaultSubstStep b := by
  unfold Input.afterMatch
  dsimp only
  split
  · rename_i h
    unfold Input.defaultSubstStep
    rw [if_pos ⟨h.1, h.2.1⟩]
    simp only [h.2.2.1]
  · rw [validateStep_fst]

theorem afterMatch_fields {τ : Type} (s : Input τ) (b : Bool) :
    (s.afterMatch b).1.autocompletion_index = s.autocompletion_index ∧
    (s.afterMatch b).1.autocompletion_query = s.autocompletion_query ∧
    (s.afterMatch b).1.autocomplete = s.autocomplete ∧
    (s.afterMatch b).1.multiline =
      (if s.multiline = Multiline.Preview then Multiline.Editing else s.multiline) := by
  obtain ⟨a1, a2, a3, a4, -⟩ := autocompleteOnEnterStep_fields s b
  obtain ⟨p1, p2, p3, -, -, -, -, -, -, p10⟩ :=
    previewFlipStep_fields (s.autocompleteOnEnterStep b)
  obtain ⟨d1, d2, d3, d4, -⟩ :=
    defaultSubstStep_fields ((s.autocompleteOnEnterStep b).previewFlipStep) b
  rw [afterMatch_fst]
  refine ⟨by rw [d1, p1, a1], by rw [d2, p2, a2], by rw [d3, p3, a3], ?_⟩
  rw [d4, p10, a4]

theorem afterMatch_false_input {τ : Type} (s : Input τ) :
    (s.afterMatch false).1.input = s.input := by
  have ha : s.autocompleteOnEnterStep false = s := by
    unfold Input.autocompleteOnEnterStep
    rw [if_neg (by simp)]
  have hd : ∀ t : Input τ, t.defaultSubstStep false = t := by
    intro t
    unfold Input.defaultSubstStep
    rw [if_neg (by simp)]
  obtain ⟨-, -, -, p4, -⟩ := previewFlipStep_fields s
  rw [afterMatch_fst, hd, ha]
  exact p4

/-! ### Claim C9: the suggestion filter -/

/-- C9: for every query and configured static candidate list, the filtered
suggestion list is exactly the candidates whose lowercased text contains
the lowercased query as a substring, in the candidates' original relative
order (a sublist of the candidates), and the empty query yields the empty
list. -/
theorem filtered_suggestions_spec {τ : Type} (s : Input τ) (choices : List String)
    (hac : s.autocomplete = some choices) (query : String) :
    s.get_filtered_suggestions "" = [] ∧
    (strIsEmpty query = false →
      s.get_filtered_suggestions query =
        choices.filter (fun choice => decide ((lowerStr query).data <:+: (lowerStr choice).data))) ∧
    List.Sublist (s.get_filtered_suggestions query) choices := by
  refine ⟨get_filtered_suggestions_empty_query s "" rfl, ?_, ?_⟩
  · intro hq
    simp only [Input.get_filtered_suggestions, hac, hq, Bool.false_eq_true, if_false]
    refine List.filter_congr ?_
    intro a _
    rw [Bool.eq_iff_iff]
    simp [strContains_iff]
  · simp only [Input.get_filtered_suggestions, hac]
    split
    · exact List.nil_sublist choices
    · exact List.filter_sublist choices

/-- Concrete instantiation of C9: two candidates, an uppercase query. -/
def filterEx : Input String :=
  { Input.new "lang" (fun t => some t) with autocomplete := some ["rust", "ruby", "go"] }

theorem filtered_suggestions_spec_witness :
    filterEx.get_filtered_suggestions "" = [] ∧
    (strIsEmpty "RU" = false →
      filterEx.get_filtered_suggestions "RU" =
        ["rust", "ruby", "go"].filter
          (fun choice => decide ((lowerStr "RU").data <:+: (lowerStr choice).data))) ∧
    List.Sublist (filterEx.get_filtered_suggestions "RU") ["rust", "ruby", "go"] :=
  filtered_suggestions_spec filterEx ["rust", "ruby", "go"] rfl "RU"

/-! ### Claim C1: Tab cycling -/

/-- C1: with autocomplete configured and a non-empty filtered list for the
pinned query (falling back to the live buffer), Tab advances the selection
`none → some 0`, `some i → some (i+1)` when `i+1 < len`, and
`some i → none` at the end; a `some` selection replaces the buffer (clear
then extend) with that candidate, the wrap to `none` leaves the buffer
unchanged, the event returns `Active`, and the Tab after the wrap restarts
at index 0. -/
theorem tab_cycling {τ : Type} (s : Input τ)
    (hac : s.autocomplete.isSome = true) (hne : s.filteredNow ≠ []) :
    (s.on Key.Tab).2 = State.Active ∧
    (s.autocompletion_index = none →
      (s.on Key.Tab).1.autocompletion_index = some 0 ∧
      (s.on Key.Tab).1.input = (s.input.clear).extend (s.filteredNow.getD 0 "")) ∧
    (∀ i, s.autocompletion_index = some i → i + 1 < s.filteredNow.length →
      (s.on Key.Tab).1.autocompletion_index = some (i + 1) ∧
      (s.on Key.Tab).1.input = (s.input.clear).extend (s.filteredNow.getD (i + 1) "")) ∧
    (∀ i, s.autocompletion_index = some i → i + 1 ≥ s.filteredNow.length →
      (s.on Key.Tab).1.autocompletion_index = none ∧
      (s.on Key.Tab).1.input = s.input ∧
      ((s.on Key.Tab).1.on Key.Tab).1.autocompletion_index = some 0) := by
  have hq0 : strIsEmpty s.filterQuery = false :=
    (get_filtered_suggestions_ne_nil s s.filterQuery hne).1
  rw [on_tab s hac, onTab_eq s hne]
  refine ⟨rfl, ?_, ?_, ?_⟩
  · intro h
    simp [cycleTab, h]
  · intro i hi hlt
    have hcond : ¬(i ≥ s.filteredNow.length - 1) := by omega
    simp [cycleTab, hi, hcond]
  · intro i hi hge
    have hcond : i ≥ s.filteredNow.length - 1 := by omega
    refine ⟨by simp [cycleTab, hi, hcond], by simp [cycleTab, hi, hcond], ?_⟩
    simp only [cycleTab, hi, hcond, ge_iff_le, if_pos]
    set s' : Input τ :=
      { s with
          autocompletion_query := s.filterQuery
          autocompletion_index := (none : Option Nat)
          input := s.input } with hs'
    have hac' : s'.autocomplete.isSome = true := hac
    have hfq' : s'.filterQuery = s.filterQuery := by
      unfold Input.filterQuery
      simp only [hs', hq0, Bool.false_eq_true, if_false]
      rfl
    have hflt : s'.filteredNow = s.filteredNow := by
      unfold Input.filteredNow
      rw [hfq', get_filtered_suggestions_congr s s' rfl]
    have hne' : s'.filteredNow ≠ [] := by rw [hflt]; exact hne
    rw [on_tab s' hac', onTab_eq s' hne']
    simp [hs', cycleTab]

/-- Concrete instantiation of C1 on `["rust", "ruby"]` with buffer "r". -/
def tabEx : Input String :=
  { Input.new "lang" (fun t => some t) with
    autocomplete := some ["rust", "ruby"]
    input := ⟨['r'], 1⟩ }

theorem tab_cycling_witness :
    (tabEx.on Key.Tab).2 = State.Active ∧
    (tabEx.on Key.Tab).1.autocompletion_index = some 0 ∧
    (tabEx.on Key.Tab).1.input = (tabEx.input.clear).extend (tabEx.filteredNow.getD 0 "") := by
  have h := tab_cycling tabEx rfl (by decide)
  exact ⟨h.1, (h.2.1 rfl).1, (h.2.1 rfl).2⟩

/-! ### Claim C2: ArrowDown / ArrowUp cycling -/

/-- C2: with autocomplete configured and a non-empty filtered list,
ArrowDown advances `none → some 0`, `some i → some (i+1)` when
`i+1 < len`, and wraps the last index to `some 0`; ArrowUp moves
`none → some (len-1)`, `some i → some (i-1)` for `i > 0`, and wraps
`some 0` to `some (len-1)`; neither produces `none`, the buffer is
replaced with the newly selected candidate, and both return `Active`. -/
theorem arrow_cycling {τ : Type} (s : Input τ)
    (hac : s.autocomplete.isSome = true) (hne : s.filteredNow ≠ []) :
    (s.on Key.ArrowDown).2 = State.Active ∧
    (s.on Key.ArrowUp).2 = State.Active ∧
    (s.on Key.ArrowDown).1.autocompletion_index.isSome = true ∧
    (s.on Key.ArrowUp).1.autocompletion_index.isSome = true ∧
    (s.autocompletion_index = none →
      (s.on Key.ArrowDown).1.autocompletion_index = some 0 ∧
      (s.on Key.ArrowDown).1.input = (s.input.clear).extend (s.filteredNow.getD 0 "") ∧
      (s.on Key.ArrowUp).1.autocompletion_index = some (s.filteredNow.length - 1) ∧
      (s.on Key.ArrowUp).1.input =
        (s.input.clear).extend (s.filteredNow.getD (s.filteredNow.length - 1) "")) ∧
    (∀ i, s.autocompletion_index = some i →
      (i + 1 < s.filteredNow.length →
        (s.on Key.ArrowDown).1.autocompletion_index = some (i + 1) ∧
        (s.on Key.ArrowDown).1.input = (s.input.clear).extend (s.filteredNow.getD (i + 1) "")) ∧
      (i + 1 ≥ s.filteredNow.length →
        (s.on Key.ArrowDown).1.autocompletion_index = some 0 ∧
        (s.on Key.ArrowDown).1.input = (s.input.clear).extend (s.filteredNow.getD 0 "")) ∧
      (0 < i →
        (s.on Key.ArrowUp).1.autocompletion_index = some (i - 1) ∧
        (s.on Key.ArrowUp).1.input = (s.input.clear).extend (s.filteredNow.getD (i - 1) "")) ∧
      (i = 0 →
        (s.on Key.ArrowUp).1.autocompletion_index = some (s.filteredNow.length - 1) ∧
        (s.on Key.ArrowUp).1.input =
          (s.input.clear).extend (s.filteredNow.getD (s.filteredNow.length - 1) ""))) := by
  rw [on_arrowDown s hac, on_arrowUp s hac, onArrowDown_eq s hne, onArrowUp_eq s hne]
  refine ⟨rfl, rfl, ?_, ?_, ?_, ?_⟩
  · cases hidx : s.autocompletion_index with
    | none => simp [cycleDown, hidx]
    | some i =>
      simp only [cycleDown, hidx]
      split <;> rfl
  · cases hidx : s.autocompletion_index with
    | none => simp [cycleUp, hidx]
    | some i =>
      simp only [cycleUp, hidx]
      split <;> rfl
  · intro h
    simp [cycleDown, cycleUp, h]
  · intro i hi
    refine ⟨?_, ?_, ?_, ?_⟩
    · intro hlt
      have hcond : ¬(i ≥ s.filteredNow.length - 1) := by omega
      simp [cycleDown, hi, hcond]
    · intro hge
      have hcond : i ≥ s.filteredNow.length - 1 := by omega
      simp [cycleDown, hi, hcond]
    · intro hpos
      have hcond : ¬(i = 0) := by omega
      simp [cycleUp, hi, hcond]
    · intro hz
      simp [cycleUp, hi, hz]

/-- Concrete instantiation of C2 on `["rust", "ruby"]` with buffer "ru". -/
def arrowEx : Input String :=
  { Input.new "lang" (fun t => some t) with
    autocomplete := some ["rust", "ruby"]
    input := ⟨['r', 'u'], 2⟩ }

theorem arrow_cycling_witness :
    (arrowEx.on Key.ArrowDown).2 = State.Active ∧
    (arrowEx.on Key.ArrowUp).1.autocompletion_index =
      some (arrowEx.filteredNow.length - 1) := by
  have h := arrow_cycling arrowEx rfl (by decide)
  exact ⟨h.1, (h.2.2.2.2.1 rfl).2.2.1⟩

/-! ### Claims C10 and C3: editing keys, in and out of multiline preview -/

/-- C10: in multiline `Preview` mode a printable character or Backspace
edits the buffer directly (insert at cursor / delete left) and flips the
mode back to `Editing`, leaving the pinned query and selection index
untouched — while the same keys outside `Preview` clear both. -/
theorem preview_edit_frame {τ : Type} (s : Input τ) (hm : s.multiline = Multiline.Preview) :
    (∀ c, isAsciiControl c = false →
      (s.on (Key.Char c)).1.input = s.input.insert c ∧
      (s.on (Key.Char c)).1.multiline = Multiline.Editing ∧
      (s.on (Key.Char c)).1.autocompletion_query = s.autocompletion_query ∧
      (s.on (Key.Char c)).1.autocompletion_index = s.autocompletion_index) ∧
    ((s.on Key.Backspace).1.input = s.input.delete_left ∧
      (s.on Key.Backspace).1.multiline = Multiline.Editing ∧
      (s.on Key.Backspace).1.autocompletion_query = s.autocompletion_query ∧
      (s.on Key.Backspace).1.autocompletion_index = s.autocompletion_index) ∧
    (∀ c, isAsciiControl c = false →
      (({ s with multiline := Multiline.Disabled }).on (Key.Char c)).1.autocompletion_query
        = "" ∧
      (({ s with multiline := Multiline.Disabled }).on (Key.Char c)).1.autocompletion_index
        = none) ∧
    ((({ s with multiline := Multiline.Disabled }).on Key.Backspace).1.autocompletion_query
        = "" ∧
      (({ s with multiline := Multiline.Disabled }).on Key.Backspace).1.autocompletion_index
        = none) := by
  refine ⟨?_, ?_, ?_, ?_⟩
  · intro c hc
    rw [on_fallthrough s (Key.Char c) (by simp) (by simp) (by simp) (by simp)]
    have hpm : s.preMatch (Key.Char c) = ({ s with input := s.input.insert c }, false) := by
      simp only [Input.preMatch]
      rw [if_neg (by simp [hc]), if_pos hm]
    rw [hpm]
    obtain ⟨f1, f2, -, f4⟩ :=
      afterMatch_fields ({ s with input := s.input.insert c } : Input τ) false
    exact ⟨afterMatch_false_input _, by rw [f4]; simp [hm], f2, f1⟩
  · rw [on_fallthrough s Key.Backspace (by simp) (by simp) (by simp) (by simp)]
    have hpm : s.preMatch Key.Backspace = ({ s with input := s.input.delete_left }, false) := by
      simp only [Input.preMatch]
      rw [if_pos hm]
    rw [hpm]
    obtain ⟨f1, f2, -, f4⟩ :=
      afterMatch_fields ({ s with input := s.input.delete_left } : Input τ) false
    exact ⟨afterMatch_false_input _, by rw [f4]; simp [hm], f2, f1⟩
  · intro c hc
    rw [on_fallthrough _ (Key.Char c) (by simp) (by simp) (by simp) (by simp)]
    have hpm : ({ s with multiline := Multiline.Disabled }).preMatch (Key.Char c) =
        ({ s with multiline := Multiline.Disabled, autocompletion_index := none, autocompletion_query := "" }, false) := by
      simp only [Input.preMatch]
      rw [if_neg (by simp [hc]), if_neg (by simp)]
    rw [hpm]
    obtain ⟨f1, f2, -, -⟩ :=
      afterMatch_fields ({ s with multiline := Multiline.Disabled, autocompletion_index := none, autocompletion_query := "" } : Input τ) false
    exact ⟨f2, f1⟩
  · rw [on_fallthrough _ Key.Backspace (by simp) (by simp) (by simp) (by simp)]
    have hpm : ({ s with multiline := Multiline.Disabled }).preMatch Key.Backspace =
        ({ s with multiline := Multiline.Disabled, autocompletion_index := none, autocompletion_query := "" }, false) := by
      simp only [Input.preMatch]
      rw [if_neg (by simp)]
    rw [hpm]
    obtain ⟨f1, f2, -, -⟩ :=
      afterMatch_fields ({ s with multiline := Multiline.Disabled, autocompletion_index := none, autocompletion_query := "" } : Input τ) false
    exact ⟨f2, f1⟩

/-- A preview-mode prompt holding pinned autocompletion state. -/
def previewEx : Input String :=
  { Input.new "story" (fun t => some t) with
    multiline := Multiline.Preview
    autocomplete := some ["rust", "ruby"]
    autocompletion_query := "r"
    autocompletion_index := some 0
    input := ⟨['r', 'u', 's', 't'], 4⟩ }

theorem preview_edit_frame_witness :
    (previewEx.on (Key.Char 'a')).1.input = previewEx.input.insert 'a' ∧
    (previewEx.on (Key.Char 'a')).1.multiline = Multiline.Editing ∧
    (previewEx.on (Key.Char 'a')).1.autocompletion_query = previewEx.autocompletion_query ∧
    (previewEx.on (Key.Char 'a')).1.autocompletion_index = previewEx.autocompletion_index :=
  (preview_edit_frame previewEx rfl).1 'a' rfl

/-- C3, corrected: a printable-character insertion or Backspace clears the
pinned query and the selection index, provided the multiline mode is not
`Preview` (in preview mode those keys edit the buffer directly and leave
the cycling state untouched). -/
theorem non_cycling_edit_clears {τ : Type} (s : Input τ) (k : Key)
    (hk : (∃ c, k = Key.Char c ∧ isAsciiControl c = false) ∨ k = Key.Backspace)
    (hm : s.multiline ≠ Multiline.Preview) :
    (s.on k).1.autocompletion_query = "" ∧ (s.on k).1.autocompletion_index = none := by
  rcases hk with ⟨c, rfl, hc⟩ | rfl
  · rw [on_fallthrough s (Key.Char c) (by simp) (by simp) (by simp) (by simp)]
    have hpm : s.preMatch (Key.Char c) =
        ({ s with autocompletion_index := none, autocompletion_query := "" }, false) := by
      simp only [Input.preMatch]
      rw [if_neg (by simp [hc]), if_neg hm]
    rw [hpm]
    obtain ⟨f1, f2, -, -⟩ := afterMatch_fields
      ({ s with autocompletion_index := none, autocompletion_query := "" } : Input τ) false
    exact ⟨f2, f1⟩
  · rw [on_fallthrough s Key.Backspace (by simp) (by simp) (by simp) (by simp)]
    have hpm : s.preMatch Key.Backspace =
        ({ s with autocompletion_index := none, autocompletion_query := "" }, false) := by
      simp only [Input.preMatch]
      rw [if_neg hm]
    rw [hpm]
    obtain ⟨f1, f2, -, -⟩ := afterMatch_fields
      ({ s with autocompletion_index := none, autocompletion_query := "" } : Input τ) false
    exact ⟨f2, f1⟩

/-- A single-line prompt in the middle of suggestion cycling. -/
def clearsEx : Input String :=
  { Input.new "lang" (fun t => some t) with
    autocomplete := some ["rust", "ruby"]
    autocompletion_query := "r"
    autocompletion_index := some 1
    input := ⟨['r', 'u', 'b', 'y'], 4⟩ }

theorem non_cycling_edit_clears_witness :
    (clearsEx.on Key.Backspace).1.autocompletion_query = "" ∧
    (clearsEx.on Key.Backspace).1.autocompletion_index = none :=
  non_cycling_edit_clears clearsEx Key.Backspace (Or.inr rfl) (by decide)

/-- The same cycling state as `clearsEx`, but in multiline preview mode:
the counterexample configuration for C3 as frozen. -/
def previewClearsEx : Input String :=
  { Input.new "story" (fun t => some t) with
    multiline := Multiline.Preview
    autocomplete := some ["rust", "ruby"]
    autocompletion_query := "r"
    autocompletion_index := some 0
    input := ⟨['r', 'u', 's', 't'], 4⟩ }

/-- C3 as frozen is false: in multiline preview mode, the printable
character 'a' leaves the pinned query "r" and the selection index
`some 0` in place instead of clearing them. -/
theorem non_cycling_edit_clears_counterexample :
    (previewClearsEx.on (Key.Char 'a')).1.autocompletion_query = "r" ∧
    (previewClearsEx.on (Key.Char 'a')).1.autocompletion_index = some 0 ∧
    ¬((previewClearsEx.on (Key.Char 'a')).1.autocompletion_query = "" ∧
      (previewClearsEx.on (Key.Char 'a')).1.autocompletion_index = none) := by
  refine ⟨rfl, rfl, ?_⟩
  intro h
  exact absurd h.2 (by decide)

/-! ### Claim C7: Escape in multiline editing -/

/-- C7: with multiline mode `Editing`, an Escape event flips the mode to
`Preview` and returns the quirked `Cancel` with no other field touched:
the whole per-event tail (preview flip, validation, submission) is
skipped. -/
theorem escape_in_editing {τ : Type} (s : Input τ) (h : s.multiline = Multiline.Editing) :
    s.on Key.Escape = ({ s with multiline := Multiline.Preview }, State.Cancel) := by
  unfold Input.on
  simp [h]

/-- A multiline-editing prompt with an always-failing interactive
validator: Escape still reports the quirked Cancel, untouched by the
validator. -/
def escEx : Input String :=
  { Input.new "story" (fun t => some t) with
    multiline := Multiline.Editing
    validate_interactively := some (fun _ => Except.error "rejected") }

theorem escape_in_editing_witness :
    escEx.on Key.Escape = ({ escEx with multiline := Multiline.Preview }, State.Cancel) :=
  escape_in_editing escEx rfl

/-! ### Claim C8: default value seeding in `interact` -/

/-- C8, corrected: when no placeholder was explicitly supplied and a
default is set, `interact` turns the placeholder into the default text
followed by " (default)", and a multiline-editing prompt starts in
`Preview`.  (Both effects live inside the empty-placeholder branch: with
an explicit placeholder the mode is not flipped.) -/
theorem default_placeholder_seeding {τ : Type} (s : Input τ) (d : String)
    (hp : s.placeholder.is_empty = true) (hd : s.default = some d) :
    ((s.interact).placeholder).toString = d ++ " (default)" ∧
    (s.multiline = Multiline.Editing → (s.interact).multiline = Multiline.Preview) := by
  have hchars : s.placeholder.chars = [] := by
    unfold StringCursor.is_empty at hp
    exact List.isEmpty_eq_true.mp hp
  have hph : ((s.placeholder.extend d).extend " (default)").toString = d ++ " (default)" := by
    unfold StringCursor.extend StringCursor.toString
    rw [hchars]
    cases d with
    | mk l => rfl
  unfold Input.interact
  rw [if_pos hp]
  simp only [hd]
  constructor
  · split
    · exact hph
    · exact hph
  · intro hm
    rw [if_pos (by simpa using hm)]

/-- A prompt with an explicit placeholder, a default, and multiline
editing: the configuration where the letter of C8 fails. -/
def placeholderEx : Input String :=
  { Input.new "q" (fun t => some t) with
    placeholder := ⟨['h', 'i', 'n', 't'], 0⟩
    default := some "d"
    multiline := Multiline.Editing }

/-- C8 as frozen is false: with an explicitly supplied placeholder, the
multiline mode stays `Editing` at the start of `interact` even though
multiline editing was requested and a default exists. -/
theorem default_placeholder_seeding_counterexample :
    placeholderEx.default = some "d" ∧
    placeholderEx.multiline = Multiline.Editing ∧
    (placeholderEx.interact).multiline = Multiline.Editing ∧
    (placeholderEx.interact).multiline ≠ Multiline.Preview :=
  ⟨rfl, rfl, rfl, by decide⟩

/-- A multiline prompt with a default and no explicit placeholder. -/
def seedEx : Input String :=
  { Input.new "q" (fun t => some t) with
    default := some "yes"
    multiline := Multiline.Editing }

theorem default_placeholder_seeding_witness :
    ((seedEx.interact).placeholder).toString = "yes" ++ " (default)" ∧
    (seedEx.interact).multiline = Multiline.Preview := by
  have h := default_placeholder_seeding seedEx "yes" rfl rfl
  exact ⟨h.1, h.2 rfl⟩

/-! ### Claim C5: submitting with an empty buffer -/

/-- `validateStep` with no validators configured goes straight to the
final parse on submit. -/
theorem validateStep_no_validators {τ : Type} (t : Input τ)
    (hvi : t.validate_interactively = none) (hve : t.validate_on_enter = none) :
    t.validateStep true =
      (t, match t.parse t.input.toString with
          | some v => State.Submit v
          | none => State.Error ("Invalid value format")) := by
  unfold Input.validateStep Input.submitStep Input.parseStep
  simp only [hvi, hve, if_pos]
  cases hp : t.parse t.input.toString <;> simp [hp]

/-- C5: on a submit-requesting event with an empty buffer, a configured
default is substituted into the buffer and submission proceeds with the
default parsed into the target type; with no default, a required field
returns `Error "Input required"`, and a non-required field sends the
empty string to parsing. -/
theorem empty_submit {τ : Type} (s : Input τ)
    (hm : s.multiline ≠ Multiline.Editing) (he : s.input.is_empty = true) :
    (∀ d v, s.default = some d → s.validate_interactively = none →
      s.validate_on_enter = none → s.parse d = some v →
      (s.on Key.Enter).2 = State.Submit v ∧ (s.on Key.Enter).1.input.toString = d) ∧
    (s.default = none → s.input_required = true →
      (s.on Key.Enter).2 = State.Error ("Input required")) ∧
    (s.default = none → s.input_required = false → s.validate_interactively = none →
      s.validate_on_enter = none →
      (s.on Key.Enter).2 =
        (match s.parse "" with
         | some v => State.Submit v
         | none => State.Error ("Invalid value format"))) := by
  have hchars : s.input.chars = [] := by
    unfold StringCursor.is_empty at he
    exact List.isEmpty_eq_true.mp he
  have hstr : s.input.toString = "" := by
    unfold StringCursor.toString
    rw [hchars]
  have hfall := on_fallthrough s Key.Enter (by simp) (by simp) (by simp) (by simp)
  have hpm : s.preMatch Key.Enter = (s, true) := by
    simp only [Input.preMatch]
    rw [if_neg hm]
  rw [hfall, hpm]
  obtain ⟨-, -, -, p4, p5, p6, p7, p8, p9, -⟩ := previewFlipStep_fields s
  have haoe : s.autocompleteOnEnterStep true = s := by
    unfold Input.autocompleteOnEnterStep
    split
    · simp only [hstr, get_filtered_suggestions_empty_query s "" rfl]
    · rfl
  refine ⟨?_, ?_, ?_⟩
  · intro d v hd hvi hve hparse
    unfold Input.afterMatch
    dsimp only
    rw [haoe]
    rw [if_neg (fun h => by rw [p5, hd] at h; exact Option.noConfusion h.2.2.1)]
    have hsub : (s.previewFlipStep).defaultSubstStep true =
        { s.previewFlipStep with input := (s.previewFlipStep).input.extend d } := by
      unfold Input.defaultSubstStep
      rw [if_pos ⟨rfl, by rw [p4]; exact he⟩]
      simp only [p5, hd]
    rw [hsub]
    have htos : ({ s.previewFlipStep with
        input := (s.previewFlipStep).input.extend d }).input.toString = d := by
      show ((s.previewFlipStep).input.extend d).toString = d
      unfold StringCursor.extend StringCursor.toString
      rw [p4, hchars]
      cases d with
      | mk l => rfl
    have hvrec : ({ s.previewFlipStep with
        input := (s.previewFlipStep).input.extend d }).validate_interactively = none := by
      show (s.previewFlipStep).validate_interactively = none
      rw [p7]
      exact hvi
    have hverec : ({ s.previewFlipStep with
        input := (s.previewFlipStep).input.extend d }).validate_on_enter = none := by
      show (s.previewFlipStep).validate_on_enter = none
      rw [p8]
      exact hve
    have hprec : ({ s.previewFlipStep with
        input := (s.previewFlipStep).input.extend d }).parse = s.parse := by
      show (s.previewFlipStep).parse = s.parse
      exact p9
    rw [validateStep_no_validators _ hvrec hverec]
    dsimp only
    rw [hprec, htos, hparse]
    exact ⟨rfl, rfl⟩
  · intro hd hreq
    unfold Input.afterMatch
    dsimp only
    rw [haoe]
    rw [if_pos ⟨rfl, by rw [p4]; exact he, by rw [p5]; exact hd, by rw [p6]; exact hreq⟩]
  · intro hd hreq hvi hve
    unfold Input.afterMatch
    dsimp only
    rw [haoe]
    rw [if_neg (fun h => by rw [p6, hreq] at h; exact Bool.noConfusion h.2.2.2)]
    have hsub : (s.previewFlipStep).defaultSubstStep true = s.previewFlipStep := by
      unfold Input.defaultSubstStep
      rw [if_pos ⟨rfl, by rw [p4]; exact he⟩]
      simp only [p5, hd]
    rw [hsub]
    rw [validateStep_no_validators _ (by rw [p7]; exact hvi) (by rw [p8]; exact hve)]
    dsimp only
    rw [p9, p4, hstr]

/-- A required prompt with a default and an empty buffer. -/
def submitEx : Input String :=
  { Input.new "ready" (fun t => some t) with default := some "yes" }

theorem empty_submit_witness :
    (submitEx.on Key.Enter).2 = State.Submit "yes" ∧
    (submitEx.on Key.Enter).1.input.toString = "yes" :=
  (empty_submit submitEx (by decide) rfl).1 "yes" "yes" rfl rfl rfl rfl

/-! ### Claim C6: interactive validation -/

theorem preMatch_fields {τ : Type} (s : Input τ) (k : Key) :
    (s.preMatch k).1.default = s.default ∧
    (s.preMatch k).1.input_required = s.input_required ∧
    (s.preMatch k).1.validate_interactively = s.validate_interactively ∧
    (s.preMatch k).1.validate_on_enter = s.validate_on_enter ∧
    (s.preMatch k).1.parse = s.parse ∧
    (s.preMatch k).1.autocomplete = s.autocomplete ∧
    (s.preMatch k).1.multiline = s.multiline := by
  cases k <;> simp only [Input.preMatch] <;> repeat' split
  all_goals simp

/-- The prompt state whose buffer text the interactive validator examines
for a given event: the state after the key's own mutation, the
autocomplete-on-enter substitution, the preview flip and the default
substitution. -/
def Input.preValidationState {τ : Type} (self : Input τ) (k : Key) : Input τ :=
  (((self.preMatch k).1.autocompleteOnEnterStep (self.preMatch k).2).previewFlipStep).defaultSubstStep
    (self.preMatch k).2

/-- C6, corrected: for every key event that is not short-circuited earlier
(not a cycling key with autocomplete configured, not Escape in multiline
editing) and does not trigger the defaultless required-field error, a
configured interactive validator runs on the event's resulting buffer
text: rejection returns the validator's message, and an accepted text
that fails to parse returns `Error "Invalid value format"`, in both cases
before any on-submit validation or final parse. -/
theorem interactive_validation {τ : Type} (s : Input τ) (k : Key)
    (v : String → Except String Unit)
    (hv : s.validate_interactively = some v)
    (h1 : ¬(k = Key.Tab ∧ s.autocomplete.isSome = true))
    (h2 : ¬(k = Key.ArrowDown ∧ s.autocomplete.isSome = true))
    (h3 : ¬(k = Key.ArrowUp ∧ s.autocomplete.isSome = true))
    (h4 : ¬(k = Key.Escape ∧ s.multiline = Multiline.Editing))
    (hno : ¬((s.preMatch k).2 = true ∧
      (((s.preMatch k).1.autocompleteOnEnterStep (s.preMatch k).2).previewFlipStep).input.is_empty
          = true ∧
      (((s.preMatch k).1.autocompleteOnEnterStep (s.preMatch k).2).previewFlipStep).default
          = none ∧
      (((s.preMatch k).1.autocompleteOnEnterStep (s.preMatch k).2).previewFlipStep).input_required
          = true)) :
    (∀ msg, v ((s.preValidationState k).input.toString) = Except.error msg →
      (s.on k).2 = State.Error msg) ∧
    (∀ u, v ((s.preValidationState k).input.toString) = Except.ok u →
      s.parse ((s.preValidationState k).input.toString) = none →
      (s.on k).2 = State.Error ("Invalid value format")) := by
  obtain ⟨-, -, m3, -, m5, -, -⟩ := preMatch_fields s k
  obtain ⟨-, -, -, -, -, -, a7, -, a9⟩ :=
    autocompleteOnEnterStep_fields (s.preMatch k).1 (s.preMatch k).2
  obtain ⟨-, -, -, -, -, -, p7, -, p9, -⟩ :=
    previewFlipStep_fields ((s.preMatch k).1.autocompleteOnEnterStep (s.preMatch k).2)
  obtain ⟨-, -, -, -, -, -, d7, -, d9⟩ :=
    defaultSubstStep_fields
      (((s.preMatch k).1.autocompleteOnEnterStep (s.preMatch k).2).previewFlipStep)
      (s.preMatch k).2
  have hvt : (s.preValidationState k).validate_interactively = some v := by
    unfold Input.preValidationState
    rw [d7, p7, a7, m3, hv]
  have hpt : (s.preValidationState k).parse = s.parse := by
    unfold Input.preValidationState
    rw [d9, p9, a9, m5]
  rw [on_fallthrough s k h1 h2 h3 h4]
  unfold Input.afterMatch
  dsimp only
  rw [if_neg hno]
  refine ⟨?_, ?_⟩
  · intro msg hmsg
    show ((s.preValidationState k).validateStep (s.preMatch k).2).2 = State.Error msg
    unfold Input.validateStep
    simp only [hvt, hmsg]
  · intro u hok hparse
    show ((s.preValidationState k).validateStep (s.preMatch k).2).2
        = State.Error ("Invalid value format")
    unfold Input.validateStep
    simp only [hvt, hok]
    rw [if_pos (by rw [hpt, hparse]; rfl)]

/-- A prompt whose interactive validator rejects the empty buffer. -/
def validEx : Input String :=
  { Input.new "name" (fun t => some t) with
    validate_interactively :=
      some (fun t => if strIsEmpty t then Except.error "empty!" else Except.ok ()) }

theorem interactive_validation_witness :
    (validEx.on Key.Other).2 = State.Error "empty!" :=
  (interactive_validation validEx Key.Other
      (fun t => if strIsEmpty t then Except.error "empty!" else Except.ok ())
      rfl (by decide) (by decide) (by decide) (by decide) (by decide)).1 "empty!" rfl

/-- A prompt in the middle of suggestion cycling whose interactive
validator rejects every buffer text. -/
def rejectEx : Input String :=
  { Input.new "lang" (fun t => some t) with
    autocomplete := some ["rust"]
    input := ⟨['r'], 1⟩
    validate_interactively := some (fun _ => Except.error "bad") }

/-- C6 as frozen is false: with an interactive validator configured that
rejects every text (in particular the buffer contents after the event), a
Tab key event still returns `Active`, not the validator's error: the
cycling arms short-circuit validation. -/
theorem interactive_validation_counterexample :
    rejectEx.validate_interactively.isSome = true ∧
    (fun (_t : String) => (Except.error "bad" : Except String Unit))
        ((rejectEx.on Key.Tab).1.input.toString) = Except.error "bad" ∧
    (rejectEx.on Key.Tab).2 = State.Active ∧
    (rejectEx.on Key.Tab).2 ≠ State.Error "bad" := by
  have hA : (rejectEx.on Key.Tab).2 = State.Active := rfl
  refine ⟨rfl, rfl, hA, ?_⟩
  intro h
  rw [hA] at h
  exact State.noConfusion h

/-! ### Claim C4: the selection index is always in bounds -/

/-- The cycling invariant: a present selection index points into the
filtered list for the (then necessarily non-empty) pinned query. -/
def CyclingInv {τ : Type} (s : Input τ) : Prop :=
  ∀ i, s.autocompletion_index = some i →
    strIsEmpty s.autocompletion_query = false ∧
    i < (s.get_filtered_suggestions s.autocompletion_query).length

/-- States reachable from prompt creation: any configuration with no
selection yet (all builders leave the index `none`), closed under key
events and under the host loop's direct buffer edits. -/
inductive Reachable {τ : Type} : Input τ → Prop where
  | init (cfg : Input τ) : cfg.autocompletion_index = none → Reachable cfg
  | step (s : Input τ) (k : Key) : Reachable s → Reachable (s.on k).1
  | edit (s : Input τ) (c : StringCursor) : Reachable s → Reachable { s with input := c }

theorem cyclingInv_congr {τ : Type} (s s' : Input τ)
    (hi : s'.autocompletion_index = s.autocompletion_index)
    (hq : s'.autocompletion_query = s.autocompletion_query)
    (ha : s'.autocomplete = s.autocomplete)
    (h : CyclingInv s) : CyclingInv s' := by
  intro i hsome
  rw [hi] at hsome
  obtain ⟨h1, h2⟩ := h i hsome
  rw [hq, get_filtered_suggestions_congr s s' ha]
  exact ⟨h1, h2⟩

theorem preMatch_cyclingInv {τ : Type} (s : Input τ) (k : Key) (h : CyclingInv s) :
    CyclingInv (s.preMatch k).1 := by
  cases k with
  | Enter =>
    simp only [Input.preMatch]
    split
    · exact cyclingInv_congr s _ rfl rfl rfl h
    · exact h
  | Char c =>
    simp only [Input.preMatch]
    split
    · exact h
    · split
      · exact cyclingInv_congr s _ rfl rfl rfl h
      · intro i hsome
        exact Option.noConfusion hsome
  | Backspace =>
    simp only [Input.preMatch]
    split
    · exact cyclingInv_congr s _ rfl rfl rfl h
    · intro i hsome
      exact Option.noConfusion hsome
  | Tab => exact h
  | ArrowDown => exact h
  | ArrowUp => exact h
  | Escape => exact h
  | Other => exact h

theorem on_cyclingInv {τ : Type} (s : Input τ) (k : Key) (h : CyclingInv s) :
    CyclingInv (s.on k).1 := by
  by_cases h1 : k = Key.Tab ∧ s.autocomplete.isSome = true
  · obtain ⟨rfl, hac⟩ := h1
    rw [on_tab s hac]
    by_cases hne : s.filteredNow = []
    · rw [onTab_eq_of_empty s hne]
      exact h
    · rw [onTab_eq s hne]
      have hq0 : strIsEmpty s.filterQuery = false :=
        (get_filtered_suggestions_ne_nil s s.filterQuery hne).1
      have hlen : 0 < s.filteredNow.length := List.length_pos.mpr hne
      intro i hsome
      dsimp only at hsome ⊢
      refine ⟨hq0, ?_⟩
      show i < s.filteredNow.length
      cases hidx : s.autocompletion_index with
      | none =>
        rw [hidx] at hsome
        simp only [cycleTab, Option.some.injEq] at hsome
        omega
      | some j =>
        rw [hidx] at hsome
        simp only [cycleTab] at hsome
        by_cases hge : j ≥ s.filteredNow.length - 1
        · rw [if_pos hge] at hsome
          exact Option.noConfusion hsome
        · rw [if_neg hge] at hsome
          simp only [Option.some.injEq] at hsome
          omega
  · by_cases h2 : k = Key.ArrowDown ∧ s.autocomplete.isSome = true
    · obtain ⟨rfl, hac⟩ := h2
      rw [on_arrowDown s hac]
      by_cases hne : s.filteredNow = []
      · rw [onArrowDown_eq_of_empty s hne]
        exact h
      · rw [onArrowDown_eq s hne]
        have hq0 : strIsEmpty s.filterQuery = false :=
          (get_filtered_suggestions_ne_nil s s.filterQuery hne).1
        have hlen : 0 < s.filteredNow.length := List.length_pos.mpr hne
        intro i hsome
        dsimp only at hsome ⊢
        refine ⟨hq0, ?_⟩
        show i < s.filteredNow.length
        cases hidx : s.autocompletion_index with
        | none =>
          rw [hidx] at hsome
          simp only [cycleDown, Option.some.injEq] at hsome
          omega
        | some j =>
          rw [hidx] at hsome
          simp only [cycleDown] at hsome
          by_cases hge : j ≥ s.filteredNow.length - 1
          · rw [if_pos hge] at hsome
            simp only [Option.some.injEq] at hsome
            omega
          · rw [if_neg hge] at hsome
            simp only [Option.some.injEq] at hsome
            omega
    · by_cases h3 : k = Key.ArrowUp ∧ s.autocomplete.isSome = true
      · obtain ⟨rfl, hac⟩ := h3
        rw [on_arrowUp s hac]
        by_cases hne : s.filteredNow = []
        · rw [onArrowUp_eq_of_empty s hne]
          exact h
        · rw [onArrowUp_eq s hne]
          have hq0 : strIsEmpty s.filterQuery = false :=
            (get_filtered_suggestions_ne_nil s s.filterQuery hne).1
          have hlen : 0 < s.filteredNow.length := List.length_pos.mpr hne
          intro i hsome
          dsimp only at hsome ⊢
          refine ⟨hq0, ?_⟩
          show i < s.filteredNow.length
          cases hidx : s.autocompletion_index with
          | none =>
            rw [hidx] at hsome
            simp only [cycleUp, Option.some.injEq] at hsome
            omega
          | some j =>
            obtain ⟨hq1, hlt0⟩ := h j hidx
            have hfqq : s.filterQuery = s.autocompletion_query := by
              unfold Input.filterQuery
              rw [hq1]
              simp
            have hlt : j < s.filteredNow.length := by
              unfold Input.filteredNow
              rw [hfqq]
              exact hlt0
            rw [hidx] at hsome
            simp only [cycleUp] at hsome
            by_cases hz : j = 0
            · rw [if_pos hz] at hsome
              simp only [Option.some.injEq] at hsome
              omega
            · rw [if_neg hz] at hsome
              simp only [Option.some.injEq] at hsome
              omega
      · by_cases h4 : k = Key.Escape ∧ s.multiline = Multiline.Editing
        · obtain ⟨rfl, hml⟩ := h4
          unfold Input.on
          rw [if_neg h1, if_neg h2, if_neg h3, if_pos ⟨rfl, hml⟩]
          exact cyclingInv_congr s _ rfl rfl rfl h
        · rw [on_fallthrough s k h1 h2 h3 h4]
          obtain ⟨f1, f2, f3, -⟩ := afterMatch_fields (s.preMatch k).1 (s.preMatch k).2
          exact cyclingInv_congr (s.preMatch k).1 _ f1 f2 f3 (preMatch_cyclingInv s k h)

/-- Every reachable state satisfies the cycling invariant. -/
theorem reachable_cyclingInv {τ : Type} (s : Input τ) (hr : Reachable s) : CyclingInv s := by
  induction hr with
  | init cfg h0 =>
    intro j hj
    rw [h0] at hj
    exact Option.noConfusion hj
  | step t k ht ih => exact on_cyclingInv t k ih
  | edit t c ht ih => exact cyclingInv_congr t _ rfl rfl rfl ih

/-- C4: in every state reachable from prompt creation by any sequence of
key events (and host-side buffer edits), a present selection index is a
valid index into the filtered suggestion list computed for the pinned
query against the configured candidate set. -/
theorem selection_index_valid {τ : Type} (s : Input τ) (hr : Reachable s) (i : Nat)
    (hi : s.autocompletion_index = some i) :
    i < (s.get_filtered_suggestions s.autocompletion_query).length :=
  (reachable_cyclingInv s hr i hi).2

/-- A freshly configured prompt (selection index `none`), one Tab in. -/
def reachEx : Input String :=
  { Input.new "lang" (fun t => some t) with
    autocomplete := some ["rust", "ruby"]
    input := ⟨['r'], 1⟩ }

theorem selection_index_valid_witness :
    0 < (((reachEx.on Key.Tab).1).get_filtered_suggestions
        ((reachEx.on Key.Tab).1).autocompletion_query).length :=
  selection_index_valid ((reachEx.on Key.Tab).1)
    (Reachable.step reachEx Key.Tab (Reachable.init reachEx rfl)) 0 rfl

end Cliclack
